import Mathlib

/-!
Verification of the node-deps-watcher core logic against its specification.

The TypeScript sources are shallowly embedded as Lean functions:
- `DependencyChecker.ts` : `isVersionCompatible`, `checkDependencies`
- `PackageManagerDetector.ts` : `detectPackageManager`, `getInstalledPackages`
- `GitMonitor.ts` : `getCurrentBranch`, `checkBranchChange`

JavaScript string primitives (`startsWith`, `trim`, `substring`, `split`)
are modelled by structural functions over `List Char` so that all
definitions evaluate inside the kernel.
-/

/-- Models JS `String.prototype.startsWith` on character lists. -/
def listStartsWith : List Char → List Char → Bool
  | _, [] => true
  | [], _ :: _ => false
  | c :: cs, d :: ds => c = d && listStartsWith cs ds

/-- Models JS `s.startsWith(p)`. -/
def jsStartsWith (s p : String) : Bool :=
  listStartsWith s.data p.data

/-- Models JS `s.substring(n)` / dropping the first `n` characters. -/
def jsDrop (s : String) (n : Nat) : String :=
  String.mk (s.data.drop n)

/-- Models JS `s.substring(0, n)`. -/
def jsTake (s : String) (n : Nat) : String :=
  String.mk (s.data.take n)

/-- Whitespace characters recognised by the `trim` model. -/
def isWS (c : Char) : Bool :=
  c = ' ' || c = '\t' || c = '\n' || c = '\r'

/-- Models JS `s.trim()` (restricted to the common ASCII whitespace). -/
def jsTrim (s : String) : String :=
  String.mk (((s.data.dropWhile isWS).reverse.dropWhile isWS).reverse)

/-- Splits a character list on the dot separator, as JS `s.split(".")`. -/
def splitDots : List Char → List (List Char)
  | [] => [[]]
  | c :: cs =>
    if c = '.' then [] :: splitDots cs
    else
      match splitDots cs with
      | h :: t => (c :: h) :: t
      | [] => [[c]]

/-- Numeric value of a digit-only character list; `none` if empty or non-digit. -/
def digitsVal (cs : List Char) : Option Nat :=
  if cs ≠ [] && cs.all Char.isDigit then
    some (cs.foldl (fun n c => n * 10 + (c.toNat - 48)) 0)
  else none

/-- A parsed semantic version `major.minor.patch`. -/
structure SemVer where
  major : Nat
  minor : Nat
  patch : Nat
deriving DecidableEq, Repr

/-- Modelled from the spec: the external semver library's version parser,
restricted to plain `x.y.z` numeric versions (the fragment the program's
requirements exercise). Anything else is a parse failure. -/
def parseSemver (s : String) : Option SemVer :=
  match splitDots s.data with
  | [a, b, c] =>
    match digitsVal a, digitsVal b, digitsVal c with
    | some x, some y, some z => some ⟨x, y, z⟩
    | _, _, _ => none
  | _ => none

/-- Version order `a ≤ b`, lexicographic on (major, minor, patch). -/
def svLE (a b : SemVer) : Bool :=
  decide (a.major < b.major ∨ (a.major = b.major ∧
    (a.minor < b.minor ∨ (a.minor = b.minor ∧ a.patch ≤ b.patch))))

/-- Strict version order `a < b`. -/
def svLT (a b : SemVer) : Bool :=
  svLE a b && !(decide (a = b))

/-- Exclusive upper bound of a caret range: next breaking version. -/
def caretUpper (r : SemVer) : SemVer :=
  if r.major > 0 then ⟨r.major + 1, 0, 0⟩
  else if r.minor > 0 then ⟨0, r.minor + 1, 0⟩
  else ⟨0, 0, r.patch + 1⟩

/-- Modelled from the spec: caret-range satisfaction `i ∈ [r, caretUpper r)`. -/
def caretSat (r i : SemVer) : Bool :=
  svLE r i && svLT i (caretUpper r)

/-- Modelled from the spec: tilde-range satisfaction `i ∈ [r, r.major.(r.minor+1).0)`. -/
def tildeSat (r i : SemVer) : Bool :=
  svLE r i && svLT i ⟨r.major, r.minor + 1, 0⟩

/-- Modelled from the spec: `semver.satisfies(installed, range)` for an
unprefixed range: an empty range accepts anything, otherwise exact match
of two parsed versions; a parse failure is unsatisfied. -/
def plainSat (installed range : String) : Bool :=
  if jsTrim range = "" then true
  else
    match parseSemver range, parseSemver installed with
    | some r, some i => i == r
    | _, _ => false

/-- `semver.satisfies(installed, "^" ++ rs)`: parse both, test the caret range. -/
def caretCheck (rs is : String) : Bool :=
  match parseSemver rs, parseSemver is with
  | some r, some i => caretSat r i
  | _, _ => false

/-- `semver.satisfies(installed, "~" ++ rs)`: parse both, test the tilde range. -/
def tildeCheck (rs is : String) : Bool :=
  match parseSemver rs, parseSemver is with
  | some r, some i => tildeSat r i
  | _, _ => false

/-- `required.replace(/^[\x5e~]/, '')`: strip one leading caret or tilde. -/
def stripOp (required : String) : String :=
  if jsStartsWith required "^" || jsStartsWith required "~" then jsDrop required 1
  else required

/-- `installed.replace(/^v/, '')`: strip one leading `v`. -/
def stripV (installed : String) : String :=
  if jsStartsWith installed "v" then jsDrop installed 1 else installed

/-- Embedding of `DependencyChecker.isVersionCompatible`. -/
def isVersionCompatible (required installed : String) : Bool :=
  if jsStartsWith required "file:" || jsStartsWith required "git+" then true
  else if jsStartsWith required "^" then caretCheck (stripOp required) (stripV installed)
  else if jsStartsWith required "~" then tildeCheck (stripOp required) (stripV installed)
  else plainSat (stripV installed) (stripOp required)

/-! ## PackageManagerDetector -/

/-- Static metadata for one supported package manager
(`PackageManagerInfo` in `PackageManagerDetector.ts`). -/
structure PackageManagerInfo where
  name : String
  lockFile : String
  installCommand : String
  cleanInstallCommand : String
  listCommand : String

/-- The fixed registry `packageManagers`, in source order pnpm, yarn, npm. -/
def packageManagers : List PackageManagerInfo :=
  [⟨"pnpm", "pnpm-lock.yaml", "pnpm install", "pnpm install --frozen-lockfile",
    "pnpm list --depth=0 --silent --json"⟩,
   ⟨"yarn", "yarn.lock", "yarn install", "yarn install --frozen-lockfile",
    "yarn list --depth=0 --silent --json"⟩,
   ⟨"npm", "package-lock.json", "npm install", "npm ci",
    "npm list --depth=0 --silent --json"⟩]

/-- First loop of `detectPackageManager`: first manager whose lockfile exists. -/
def findLockOwner : List PackageManagerInfo → (String → Bool) → Option String
  | [], _ => none
  | pm :: rest, lockExists =>
    if lockExists pm.lockFile then some pm.name else findLockOwner rest lockExists

/-- Second loop of `detectPackageManager`: first manager whose executable
answers `--version` (a failed probe is caught and the loop continues). -/
def findAvailable : List PackageManagerInfo → (String → Bool) → Option String
  | [], _ => none
  | pm :: rest, versionOk =>
    if versionOk pm.name then some pm.name else findAvailable rest versionOk

/-- Embedding of `PackageManagerDetector.detectPackageManager`.
`preferred` is the `preferredPackageManager` configuration value;
`lockExists f` models `fs.existsSync(path.join(workspacePath, f))`;
`versionOk n` models `execAsync(n ++ " --version")` succeeding. -/
def detectPackageManager (preferred : String) (lockExists versionOk : String → Bool) : String :=
  if preferred ≠ "auto" then preferred
  else
    match findLockOwner packageManagers lockExists with
    | some n => n
    | none =>
      match findAvailable packageManagers versionOk with
      | some n => n
      | none => "npm"

/-! ## GitMonitor -/

/-- The branch pointer literal `"ref: refs/heads/"`. -/
def refHead : String := "ref: refs/heads/"

/-- Embedding of `GitMonitor.getCurrentBranch`.  The argument is `none` when
`.git/HEAD` is absent or unreadable (the catch branch), and `some c` when the
file read returned text `c`.  The code trims `c`, strips the branch pointer
prefix when present (`replace('ref: refs/heads/', '')` on a string that starts
with it), and otherwise keeps the first 7 characters (detached HEAD). -/
def getCurrentBranch (head : Option String) : String :=
  match head with
  | none => ""
  | some c =>
    let t := jsTrim c
    if jsStartsWith t refHead then jsDrop t refHead.length else jsTake t 7

/-- Embedding of `GitMonitor.checkBranchChange`.  State is the stored
`currentBranch`; the result is the new state plus the emitted branch-change
notification (`some b` = exactly one `branchChangeEmitter.fire b`). -/
def checkBranchChange (currentBranch newBranch : String) : String × Option String :=
  if newBranch ≠ "" ∧ newBranch ≠ currentBranch then (newBranch, some newBranch)
  else (currentBranch, none)

example : detectPackageManager "yarn" (fun f => f == "pnpm-lock.yaml") (fun _ => false) = "yarn" := by decide
example : detectPackageManager "auto" (fun f => f == "pnpm-lock.yaml") (fun _ => false) = "pnpm" := by decide
example : detectPackageManager "auto" (fun _ => false) (fun n => n == "yarn") = "yarn" := by decide
example : detectPackageManager "auto" (fun _ => false) (fun _ => false) = "npm" := by decide
example : getCurrentBranch (some "ref: refs/heads/feature/x\n") = "feature/x" := by decide
example : getCurrentBranch (some "0123456789abcdef0123456789abcdef01234567\n") = "0123456" := by decide
example : getCurrentBranch none = "" := by decide

/-! ## getInstalledPackages: parsing the list-command output -/

/-- Scans a reversed entry for its version part: `grabVer r = some (vs, nm)`
iff `r = vs ++ '@' :: nm` with no `'@'` in `vs` (first `'@'` of the reversed
string = last `'@'` of the original). -/
def grabVer : List Char → Option (List Char × List Char)
  | [] => none
  | c :: rest =>
    if c = '@' then some ([], rest)
    else
      match grabVer rest with
      | some (vs, nm) => some (c :: vs, nm)
      | none => none

/-- Split on the reversed character list: version = chars after the last `'@'`
(must be non-empty, mirroring the `[^@]+` group of the regex). -/
def splitRev (r : List Char) : Option (List Char × List Char) :=
  match grabVer r with
  | some (vs, nm) => if vs = [] then none else some (nm.reverse, vs.reverse)
  | none => none

/-- Embedding of the regex match `tree.name.match(/^(.*)@([^@]+)$/)` used by
the yarn branch of `getInstalledPackages`: split an installed entry on its
last `'@'` into package name and version. -/
def parseTreeEntry (s : String) : Option (String × String) :=
  match splitRev s.data.reverse with
  | some (n, v) => some (String.mk n, String.mk v)
  | none => none

/-- A JSON value, as produced by `JSON.parse` on the captured list output. -/
inductive JVal where
  | null : JVal
  | bool : Bool → JVal
  | num : Int → JVal
  | str : String → JVal
  | arr : List JVal → JVal
  | obj : List (String × JVal) → JVal

/-- Field lookup in a JSON object member list. -/
def lookupField : List (String × JVal) → String → Option JVal
  | [], _ => none
  | p :: rest, k => if p.1 = k then some p.2 else lookupField rest k

/-- JS property access `j.k`: `none` models `undefined` (also on non-objects). -/
def JVal.getField : JVal → String → Option JVal
  | JVal.obj fs, k => lookupField fs k
  | _, _ => none

/-- First lookup of an association list (JS object property access). -/
def lookupFirst : List (String × String) → String → Option String
  | [], _ => none
  | p :: rest, k => if p.1 = k then some p.2 else lookupFirst rest k

/-- JS object assignment `packages[k] = v`: overwrite an existing key,
otherwise append. -/
def setKey (l : List (String × String)) (k v : String) : List (String × String) :=
  if (lookupFirst l k).isSome then l.map (fun p => if p.1 = k then (k, v) else p)
  else l ++ [(k, v)]

/-- One step of `result.data.trees.forEach(...)` in the yarn branch:
a tree contributes iff its `name` is a truthy string containing `'@'`
that the regex splits. -/
def addTree (acc : List (String × String)) (t : JVal) : List (String × String) :=
  match t.getField "name" with
  | some (JVal.str s) =>
    if s ≠ "" && s.data.contains '@' then
      match parseTreeEntry s with
      | some (n, v) => setKey acc n v
      | none => acc
    else acc
  | _ => acc

/-- One step over `Object.keys(result.dependencies)` in the npm/pnpm branch:
an entry contributes iff its value has a truthy `version` string field. -/
def addDep (acc : List (String × String)) (p : String × JVal) : List (String × String) :=
  match p.2.getField "version" with
  | some (JVal.str v) => if v ≠ "" then setKey acc p.1 v else acc
  | _ => acc

/-- Yarn branch of the parse `switch`: `result.data.trees` must exist and be
an array, otherwise nothing is collected. -/
def yarnParse (r : JVal) : List (String × String) :=
  match r.getField "data" with
  | some d =>
    match d.getField "trees" with
    | some (JVal.arr ts) => ts.foldl addTree []
    | _ => []
  | none => []

/-- npm/pnpm branch of the parse `switch`: `result.dependencies` must be an
object, otherwise nothing is collected. -/
def flatParse (r : JVal) : List (String × String) :=
  match r.getField "dependencies" with
  | some (JVal.obj ds) => ds.foldl addDep []
  | _ => []

/-- Embedding of the parsing step of `getInstalledPackages`.  `output` is
`none` when `JSON.parse` throws on the captured text (the catch/finally path
returns the empty accumulator), `some r` when it yields JSON `r`.  The
function is total: no exception escapes the parsing step. -/
def parseInstalled (pm : String) (output : Option JVal) : List (String × String) :=
  match output with
  | none => []
  | some r =>
    if pm = "yarn" then yarnParse r
    else if pm = "pnpm" ∨ pm = "npm" then flatParse r
    else []

/-- The shape `getInstalledPackages` expects of the parsed output: for yarn a
`data.trees` array, for npm/pnpm a `dependencies` object. -/
def expectedShape (pm : String) (output : Option JVal) : Bool :=
  match output with
  | none => false
  | some r =>
    if pm = "yarn" then
      match r.getField "data" with
      | some d =>
        match d.getField "trees" with
        | some (JVal.arr _) => true
        | _ => false
      | none => false
    else
      match r.getField "dependencies" with
      | some (JVal.obj _) => true
      | _ => false

example : parseTreeEntry "@scope/pkg@2.3.4" = some ("@scope/pkg", "2.3.4") := by decide
example : parseTreeEntry "lodash@4.17.21" = some ("lodash", "4.17.21") := by decide
example : parseTreeEntry "abc@" = none := by decide
example : parseTreeEntry "abc" = none := by decide
example : parseInstalled "npm" none = [] := by decide
example : parseInstalled "yarn"
    (some (JVal.obj [("data", JVal.obj [("trees",
      JVal.arr [JVal.obj [("name", JVal.str "@scope/pkg@2.3.4")]])])])) =
    [("@scope/pkg", "2.3.4")] := by decide
example : parseInstalled "npm"
    (some (JVal.obj [("dependencies", JVal.obj
      [("lodash", JVal.obj [("version", JVal.str "4.17.21")])])])) =
    [("lodash", "4.17.21")] := by decide

/-! ## DependencyChecker.checkDependencies -/

/-- Result record of a dependency check (`DependencyCheckResult`). -/
structure DependencyCheckResult where
  isValid : Bool
  missingPackages : List String
  extraPackages : List String
  outdatedPackages : List String
  errors : List String
deriving DecidableEq, Repr

/-- The two declared-dependency sections of a parsed `package.json`
(a missing section spreads to nothing and is modelled by `[]`). -/
structure Manifest where
  dependencies : List (String × String)
  devDependencies : List (String × String)

/-- Environment of one `checkDependencies` call: the manifest (`none` when
`package.json` is absent) and the installed set the detector reports. -/
structure CheckEnv where
  packageJson : Option Manifest
  installed : List (String × String)

/-- JS object spread `\x7b...a, ...b\x7d` on association lists with unique
keys: `a`'s entries in order with `b`'s value where the key collides,
followed by `b`'s entries whose keys are new. -/
def spreadMerge (a b : List (String × String)) : List (String × String) :=
  (a.map (fun p =>
    match lookupFirst b p.1 with
    | some v => (p.1, v)
    | none => p)) ++
  b.filter (fun p => (lookupFirst a p.1).isNone)

/-- JS truthiness of `map[name]`: `none` when the key is absent or its value
is the empty string (falsy). -/
def lookupJS (l : List (String × String)) (k : String) : Option String :=
  match lookupFirst l k with
  | some v => if v = "" then none else some v
  | none => none

/-- One iteration of the `for (const [name, version] of Object.entries(...))`
loop: record the package as missing when not (truthily) installed, else as
outdated when the versions are incompatible. -/
def depStep (inst : List (String × String)) (r : DependencyCheckResult)
    (p : String × String) : DependencyCheckResult :=
  match lookupJS inst p.1 with
  | none =>
    { r with missingPackages := r.missingPackages ++ [p.1], isValid := false }
  | some v =>
    if isVersionCompatible p.2 v then r
    else
      { r with
          outdatedPackages :=
            r.outdatedPackages ++ [p.1 ++ "@" ++ v ++ " (required: " ++ p.2 ++ ")"],
          isValid := false }

/-- Embedding of `DependencyChecker.checkDependencies`.  The second component
records the external detector calls made (`detectPackageManager`,
`getInstalledPackages`); when `package.json` is absent the function returns
immediately and neither is attempted. -/
def checkDependenciesRun (env : CheckEnv) : DependencyCheckResult × List String :=
  match env.packageJson with
  | none =>
    ({ isValid := false, missingPackages := [], extraPackages := [],
       outdatedPackages := [], errors := ["package.json not found"] }, [])
  | some pj =>
    let req := spreadMerge pj.dependencies pj.devDependencies
    let r0 : DependencyCheckResult :=
      { isValid := true, missingPackages := [], extraPackages := [],
        outdatedPackages := [], errors := [] }
    let r1 := req.foldl (depStep env.installed) r0
    let extras := (env.installed.map Prod.fst).filter (fun n => (lookupJS req n).isNone)
    ({ r1 with extraPackages := extras },
     ["detectPackageManager", "getInstalledPackages"])

/-- The `DependencyCheckResult` of one `checkDependencies` call. -/
def checkDependencies (env : CheckEnv) : DependencyCheckResult :=
  (checkDependenciesRun env).1

/-- Names the check loop records as missing: declared but not truthily
installed. -/
def missingOf (inst req : List (String × String)) : List String :=
  (req.filter (fun p => (lookupJS inst p.1).isNone)).map Prod.fst

/-- Entries the check loop records as outdated, formatted as in the source. -/
def outdatedEntriesOf (inst req : List (String × String)) : List String :=
  req.filterMap (fun p =>
    match lookupJS inst p.1 with
    | some v =>
      if isVersionCompatible p.2 v then none
      else some (p.1 ++ "@" ++ v ++ " (required: " ++ p.2 ++ ")")
    | none => none)

/-- The package names appearing in the outdated entries. -/
def outdatedNamesOf (inst req : List (String × String)) : List String :=
  req.filterMap (fun p =>
    match lookupJS inst p.1 with
    | some v => if isVersionCompatible p.2 v then none else some p.1
    | none => none)

example :
    checkDependencies ⟨some ⟨[("lodash", "^4.0.0"), ("chalk", "^5.0.0")], []⟩,
      [("lodash", "4.17.21")]⟩ =
    { isValid := false, missingPackages := ["chalk"], extraPackages := [],
      outdatedPackages := [], errors := [] } := by decide
example :
    checkDependencies ⟨none, [("x", "1.0.0")]⟩ =
    { isValid := false, missingPackages := [], extraPackages := [],
      outdatedPackages := [], errors := ["package.json not found"] } := by decide
example :
    checkDependencies ⟨some ⟨[("a", "^1.0.0")], []⟩, [("a", "1.0.2"), ("b", "2.0.0")]⟩ =
    { isValid := true, missingPackages := [], extraPackages := ["b"],
      outdatedPackages := [], errors := [] } := by decide
example :
    checkDependencies ⟨some ⟨[("a", "^2.0.0")], []⟩, [("a", "1.0.2")]⟩ =
    { isValid := false, missingPackages := [], extraPackages := [],
      outdatedPackages := ["a@1.0.2 (required: ^2.0.0)"], errors := [] } := by decide
example :
    checkDependencies ⟨some ⟨[("a", "")], []⟩, [("a", "1.0.0")]⟩ =
    { isValid := true, missingPackages := [], extraPackages := ["a"],
      outdatedPackages := [], errors := [] } := by decide
example : spreadMerge [("a", "^1.0.0")] [("a", "^2.0.0")] = [("a", "^2.0.0")] := by decide

/-! ## Supporting lemmas -/

lemma grabVer_append (vs nm : List Char) (h : ('@' : Char) ∉ vs) :
    grabVer (vs ++ '@' :: nm) = some (vs, nm) := by
  induction vs with
  | nil => simp [grabVer]
  | cons c cs ih =>
    have hc : ¬c = '@' := fun e => h (e ▸ List.mem_cons_self c cs)
    have h' : ('@' : Char) ∉ cs := fun m => h (List.mem_cons_of_mem c m)
    simp [grabVer, hc, ih h']

lemma splitRev_append (nm vs : List Char) (hv : vs ≠ []) (h : ('@' : Char) ∉ vs) :
    splitRev (vs ++ '@' :: nm) = some (nm.reverse, vs.reverse) := by
  simp [splitRev, grabVer_append vs nm h, hv]

lemma lookupFirst_append (a b : List (String × String)) (k : String) :
    lookupFirst (a ++ b) k =
      (match lookupFirst a k with
       | some v => some v
       | none => lookupFirst b k) := by
  induction a with
  | nil => simp [lookupFirst]
  | cons p a ih =>
    by_cases hp : p.1 = k
    · simp [lookupFirst, hp]
    · simp [lookupFirst, hp, ih]

lemma lookupFirst_eq_none (l : List (String × String)) (k : String) :
    lookupFirst l k = none ↔ k ∉ l.map Prod.fst := by
  induction l with
  | nil => simp [lookupFirst]
  | cons p l ih =>
    by_cases hp : p.1 = k
    · simp [lookupFirst, hp]
    · simp [lookupFirst, hp, ih, Ne.symm hp]

lemma lookupFirst_mem {l : List (String × String)} {k v : String}
    (h : lookupFirst l k = some v) : (k, v) ∈ l := by
  induction l with
  | nil => simp [lookupFirst] at h
  | cons p l ih =>
    by_cases hp : p.1 = k
    · simp [lookupFirst, hp] at h
      exact List.mem_cons.mpr (Or.inl (by cases p; simp_all))
    · simp [lookupFirst, hp] at h
      exact List.mem_cons_of_mem p (ih h)

lemma lookupFirst_map_val (g : String → String → String)
    (a : List (String × String)) (k : String) :
    lookupFirst (a.map (fun q => (q.1, g q.1 q.2))) k =
      (match lookupFirst a k with
       | some v => some (g k v)
       | none => none) := by
  induction a with
  | nil => simp [lookupFirst]
  | cons q a ih =>
    by_cases hq : q.1 = k
    · subst hq
      simp [lookupFirst]
    · simp [lookupFirst, hq, ih]

lemma lookupFirst_filter_keep (b : List (String × String)) (k : String)
    (pr : String × String → Bool) (h : ∀ q : String × String, q.1 = k → pr q = true) :
    lookupFirst (b.filter pr) k = lookupFirst b k := by
  induction b with
  | nil => rfl
  | cons q b ih =>
    by_cases hq : q.1 = k
    · simp [List.filter_cons, h q hq, lookupFirst, hq]
    · cases hpr : pr q <;> simp [List.filter_cons, hpr, lookupFirst, hq, ih]

lemma lookupFirst_filter_drop (b : List (String × String)) (k : String)
    (pr : String × String → Bool) (h : ∀ q : String × String, q.1 = k → pr q = false) :
    lookupFirst (b.filter pr) k = none := by
  induction b with
  | nil => rfl
  | cons q b ih =>
    by_cases hq : q.1 = k
    · simp [List.filter_cons, h q hq, lookupFirst, hq, ih]
    · cases hpr : pr q <;> simp [List.filter_cons, hpr, lookupFirst, hq, ih]

lemma spreadMerge_keys (a b : List (String × String)) :
    (spreadMerge a b).map Prod.fst =
      a.map Prod.fst ++
        (b.filter (fun p => (lookupFirst a p.1).isNone)).map Prod.fst := by
  unfold spreadMerge
  rw [List.map_append]
  congr 1
  induction a with
  | nil => rfl
  | cons p a ih =>
    cases hb : lookupFirst b p.1 <;> simp [hb, ih]

lemma lookupFirst_spreadMerge (a b : List (String × String)) (k : String) :
    lookupFirst (spreadMerge a b) k =
      (match lookupFirst b k with
       | some v => some v
       | none => lookupFirst a k) := by
  have hf : (fun q : String × String =>
      (match lookupFirst b q.1 with
       | some v => (q.1, v)
       | none => q)) =
      (fun q : String × String =>
        (q.1, match lookupFirst b q.1 with
              | some v => v
              | none => q.2)) := by
    funext q
    cases lookupFirst b q.1 <;> rfl
  unfold spreadMerge
  rw [hf, lookupFirst_append,
    lookupFirst_map_val (fun key val =>
      match lookupFirst b key with
      | some v => v
      | none => val) a k]
  cases ha : lookupFirst a k with
  | some v =>
    cases hb : lookupFirst b k <;> simp [hb]
  | none =>
    have hkeep : lookupFirst
        (b.filter (fun p => (lookupFirst a p.1).isNone)) k = lookupFirst b k := by
      apply lookupFirst_filter_keep
      intro q hq
      rw [hq, ha]
      rfl
    cases hb : lookupFirst b k <;> simp [hkeep, hb]

lemma foldl_depStep_missing (req inst : List (String × String))
    (r : DependencyCheckResult) :
    (req.foldl (depStep inst) r).missingPackages =
      r.missingPackages ++ missingOf inst req := by
  induction req generalizing r with
  | nil => simp [missingOf]
  | cons p req ih =>
    cases h : lookupJS inst p.1 with
    | none => simp [depStep, h, ih, missingOf, List.filter_cons]
    | some v =>
      cases hc : isVersionCompatible p.2 v <;>
        simp [depStep, h, hc, ih, missingOf, List.filter_cons]

lemma foldl_depStep_outdated (req inst : List (String × String))
    (r : DependencyCheckResult) :
    (req.foldl (depStep inst) r).outdatedPackages =
      r.outdatedPackages ++ outdatedEntriesOf inst req := by
  induction req generalizing r with
  | nil => simp [outdatedEntriesOf]
  | cons p req ih =>
    cases h : lookupJS inst p.1 with
    | none => simp [depStep, h, ih, outdatedEntriesOf, List.filterMap_cons]
    | some v =>
      cases hc : isVersionCompatible p.2 v <;>
        simp [depStep, h, hc, ih, outdatedEntriesOf, List.filterMap_cons]

lemma foldl_depStep_errors (req inst : List (String × String))
    (r : DependencyCheckResult) :
    (req.foldl (depStep inst) r).errors = r.errors := by
  induction req generalizing r with
  | nil => rfl
  | cons p req ih =>
    cases h : lookupJS inst p.1 with
    | none => simp [depStep, h, ih]
    | some v => cases hc : isVersionCompatible p.2 v <;> simp [depStep, h, hc, ih]

lemma foldl_depStep_valid (req inst : List (String × String))
    (r : DependencyCheckResult) :
    (req.foldl (depStep inst) r).isValid =
      (r.isValid && (missingOf inst req).isEmpty &&
        (outdatedEntriesOf inst req).isEmpty) := by
  induction req generalizing r with
  | nil => simp [missingOf, outdatedEntriesOf]
  | cons p req ih =>
    cases h : lookupJS inst p.1 with
    | none =>
      simp [depStep, h, ih, missingOf, outdatedEntriesOf, List.filter_cons,
        List.filterMap_cons]
    | some v =>
      cases hc : isVersionCompatible p.2 v <;>
        simp [depStep, h, hc, ih, missingOf, outdatedEntriesOf, List.filter_cons,
          List.filterMap_cons]

lemma checkDeps_fields (env : CheckEnv) (pj : Manifest)
    (hpj : env.packageJson = some pj) :
    (checkDependencies env).missingPackages =
      missingOf env.installed (spreadMerge pj.dependencies pj.devDependencies) ∧
    (checkDependencies env).outdatedPackages =
      outdatedEntriesOf env.installed (spreadMerge pj.dependencies pj.devDependencies) ∧
    (checkDependencies env).extraPackages =
      (env.installed.map Prod.fst).filter
        (fun n => (lookupJS (spreadMerge pj.dependencies pj.devDependencies) n).isNone) ∧
    (checkDependencies env).errors = [] ∧
    (checkDependencies env).isValid =
      ((missingOf env.installed (spreadMerge pj.dependencies pj.devDependencies)).isEmpty &&
        (outdatedEntriesOf env.installed
          (spreadMerge pj.dependencies pj.devDependencies)).isEmpty) := by
  unfold checkDependencies checkDependenciesRun
  rw [hpj]
  refine ⟨?_, ?_, ?_, ?_, ?_⟩ <;>
    simp [foldl_depStep_missing, foldl_depStep_outdated, foldl_depStep_errors,
      foldl_depStep_valid]

lemma lookupJS_some_mem {l : List (String × String)} {k v : String}
    (h : lookupJS l k = some v) : k ∈ l.map Prod.fst := by
  unfold lookupJS at h
  cases hf : lookupFirst l k with
  | none => rw [hf] at h; cases h
  | some w => exact List.mem_map.mpr ⟨(k, w), lookupFirst_mem hf, rfl⟩

lemma lookupJS_none_iff {l : List (String × String)} {k : String}
    (hv : ∀ p ∈ l, p.2 ≠ "") :
    lookupJS l k = none ↔ k ∉ l.map Prod.fst := by
  unfold lookupJS
  cases hf : lookupFirst l k with
  | none => simp [(lookupFirst_eq_none l k).mp hf]
  | some w =>
    have hw : w ≠ "" := hv (k, w) (lookupFirst_mem hf)
    have hk : k ∈ l.map Prod.fst :=
      List.mem_map.mpr ⟨(k, w), lookupFirst_mem hf, rfl⟩
    simp [hw, hk]

/-! ## Claim theorems -/

/-- C2: `detectPackageManager` resolves with first-match-wins precedence: a
preference other than `"auto"` is returned unconditionally; otherwise the
first manager in the order pnpm, yarn, npm whose lockfile exists; otherwise
the first whose executable answers a version query; otherwise `"npm"`. -/
theorem c2_detectPackageManager_precedence (preferred : String)
    (lockExists versionOk : String → Bool) :
    (preferred ≠ "auto" →
      detectPackageManager preferred lockExists versionOk = preferred) ∧
    (preferred = "auto" →
      detectPackageManager preferred lockExists versionOk =
        (if lockExists "pnpm-lock.yaml" then "pnpm"
         else if lockExists "yarn.lock" then "yarn"
         else if lockExists "package-lock.json" then "npm"
         else if versionOk "pnpm" then "pnpm"
         else if versionOk "yarn" then "yarn"
         else if versionOk "npm" then "npm"
         else "npm")) := by
  constructor
  · intro h
    simp [detectPackageManager, h]
  · intro h
    subst h
    cases h1 : lockExists "pnpm-lock.yaml" <;> cases h2 : lockExists "yarn.lock" <;>
      cases h3 : lockExists "package-lock.json" <;> cases h4 : versionOk "pnpm" <;>
      cases h5 : versionOk "yarn" <;> cases h6 : versionOk "npm" <;>
      simp [detectPackageManager, packageManagers, findLockOwner, findAvailable,
        h1, h2, h3, h4, h5, h6]

/-- Witness for C2: with preference `"yarn"` and only a pnpm lockfile
present, detection still returns `"yarn"`. -/
theorem c2_detectPackageManager_witness :
    detectPackageManager "yarn" (fun f => f == "pnpm-lock.yaml") (fun _ => false) =
      "yarn" :=
  (c2_detectPackageManager_precedence "yarn" (fun f => f == "pnpm-lock.yaml")
    (fun _ => false)).1 (by decide)

/-- C3: `isVersionCompatible` accepts any `file:` or `git+` requirement;
otherwise it strips a leading caret/tilde from the requirement and a leading
`v` from the installed version and tests semver satisfaction with the
stripped operator re-applied; the spec's concrete caret/tilde cases hold and
parse failures yield `false`. -/
theorem c3_isVersionCompatible_spec :
    (∀ required installed : String, jsStartsWith required "file:" = true →
      isVersionCompatible required installed = true) ∧
    (∀ required installed : String, jsStartsWith required "git+" = true →
      isVersionCompatible required installed = true) ∧
    (∀ required installed : String,
      jsStartsWith required "file:" = false → jsStartsWith required "git+" = false →
      isVersionCompatible required installed =
        (if jsStartsWith required "^" then caretCheck (stripOp required) (stripV installed)
         else if jsStartsWith required "~" then tildeCheck (stripOp required) (stripV installed)
         else plainSat (stripV installed) (stripOp required))) ∧
    isVersionCompatible "^1.2.0" "1.9.0" = true ∧
    isVersionCompatible "^1.2.0" "2.0.0" = false ∧
    isVersionCompatible "^1.2.0" "0.9.0" = false ∧
    isVersionCompatible "~1.2.0" "1.2.9" = true ∧
    isVersionCompatible "~1.2.0" "1.3.0" = false ∧
    isVersionCompatible "^1.2.0" "v1.9.0" = true ∧
    isVersionCompatible "^not-a-version" "1.0.0" = false ∧
    isVersionCompatible "1.2.3" "garbage" = false := by
  refine ⟨?_, ?_, ?_, by decide, by decide, by decide, by decide, by decide,
    by decide, by decide, by decide⟩
  · intro r i h
    simp [isVersionCompatible, h]
  · intro r i h
    simp [isVersionCompatible, h]
  · intro r i h1 h2
    simp [isVersionCompatible, h1, h2]

/-- Witness for C3: the universally quantified parts applied at concrete
requirement/installed pairs. -/
theorem c3_isVersionCompatible_witness :
    isVersionCompatible "file:../pkg" "9.9.9" = true ∧
    isVersionCompatible "git+ssh://host/repo.git" "9.9.9" = true ∧
    isVersionCompatible "1.2.3" "v1.2.3" = true := by
  refine ⟨?_, ?_, ?_⟩
  · exact c3_isVersionCompatible_spec.1 "file:../pkg" "9.9.9" (by decide)
  · exact c3_isVersionCompatible_spec.2.1 "git+ssh://host/repo.git" "9.9.9" (by decide)
  · exact (c3_isVersionCompatible_spec.2.2.1 "1.2.3" "v1.2.3" (by decide)
      (by decide)).trans (by decide)

/-- C7: when `package.json` is absent, `checkDependencies` returns
immediately with `isValid = false`, exactly the single error
`"package.json not found"`, all three package lists empty, and makes no
detector call (no package-manager detection or listing is attempted). -/
theorem c7_manifest_absent (inst : List (String × String)) :
    checkDependencies ⟨none, inst⟩ =
      { isValid := false, missingPackages := [], extraPackages := [],
        outdatedPackages := [], errors := ["package.json not found"] } ∧
    (checkDependenciesRun ⟨none, inst⟩).2 = [] :=
  ⟨rfl, rfl⟩

/-- C8: `getCurrentBranch` strips the `"ref: refs/heads/"` pointer to return
the branch name, keeps the first 7 characters of the head content in
detached state, and returns `""` when the head file is absent or
unreadable. -/
theorem c8_getCurrentBranch_spec (c : String) :
    getCurrentBranch none = "" ∧
    (jsStartsWith (jsTrim c) refHead = true →
      getCurrentBranch (some c) = jsDrop (jsTrim c) refHead.length) ∧
    (jsStartsWith (jsTrim c) refHead = false →
      getCurrentBranch (some c) = jsTake (jsTrim c) 7) := by
  refine ⟨rfl, ?_, ?_⟩ <;> intro h <;> simp [getCurrentBranch, h]

/-- Witness for C8: `ref: refs/heads/feature/x` yields `feature/x`; a
40-character hash yields its 7-character short form; an unreadable head
yields `""`. -/
theorem c8_getCurrentBranch_witness :
    getCurrentBranch (some "ref: refs/heads/feature/x\n") = "feature/x" ∧
    getCurrentBranch (some "0123456789abcdef0123456789abcdef01234567\n") = "0123456" ∧
    (getCurrentBranch (some "0123456789abcdef0123456789abcdef01234567\n")).length = 7 ∧
    getCurrentBranch none = "" := by
  refine ⟨?_, ?_, ?_, ?_⟩
  · exact ((c8_getCurrentBranch_spec "ref: refs/heads/feature/x\n").2.1
      (by decide)).trans (by decide)
  · exact ((c8_getCurrentBranch_spec "0123456789abcdef0123456789abcdef01234567\n").2.2
      (by decide)).trans (by decide)
  · have e : getCurrentBranch (some "0123456789abcdef0123456789abcdef01234567\n") =
        "0123456" :=
      ((c8_getCurrentBranch_spec "0123456789abcdef0123456789abcdef01234567\n").2.2
        (by decide)).trans (by decide)
    rw [e]
    decide
  · exact (c8_getCurrentBranch_spec "").1

/-- C9: the branch watcher emits nothing when the recomputed branch is empty
or equal to the stored branch; when non-empty and different it stores the
new value and emits exactly one notification carrying it; re-processing the
same value immediately afterwards never emits a second notification. -/
theorem c9_checkBranchChange_spec (currentBranch : String) (head : Option String) :
    (getCurrentBranch head = "" ∨ getCurrentBranch head = currentBranch →
      checkBranchChange currentBranch (getCurrentBranch head) = (currentBranch, none)) ∧
    (getCurrentBranch head ≠ "" → getCurrentBranch head ≠ currentBranch →
      checkBranchChange currentBranch (getCurrentBranch head) =
        (getCurrentBranch head, some (getCurrentBranch head))) ∧
    (checkBranchChange (checkBranchChange currentBranch (getCurrentBranch head)).1
      (getCurrentBranch head)).2 = none := by
  refine ⟨?_, ?_, ?_⟩
  · intro h
    rcases h with h | h <;> simp [checkBranchChange, h]
  · intro h1 h2
    simp [checkBranchChange, h1, h2]
  · by_cases h1 : getCurrentBranch head = ""
    · simp [checkBranchChange, h1]
    · by_cases h2 : getCurrentBranch head = currentBranch
      · simp [checkBranchChange, h1, h2]
      · simp [checkBranchChange, h1, h2]

/-- Witness for C9: a change to `dev` emits once; a second identical value
does not emit. -/
theorem c9_checkBranchChange_witness :
    checkBranchChange "main" (getCurrentBranch (some "ref: refs/heads/dev")) =
      ("dev", some "dev") ∧
    checkBranchChange "dev" (getCurrentBranch (some "ref: refs/heads/dev")) =
      ("dev", none) := by
  constructor
  · exact ((c9_checkBranchChange_spec "main" (some "ref: refs/heads/dev")).2.1
      (by decide) (by decide)).trans (by decide)
  · exact ((c9_checkBranchChange_spec "dev" (some "ref: refs/heads/dev")).1
      (Or.inr (by decide))).trans rfl

/-- Environment with no `package.json` in the workspace. -/
def cEnvNoManifest : CheckEnv := ⟨none, []⟩

/-- Environment of the spec's missing-package example: `chalk` declared but
not installed. -/
def cEnvLodash : CheckEnv :=
  ⟨some ⟨[("lodash", "^4.0.0"), ("chalk", "^5.0.0")], []⟩, [("lodash", "4.17.21")]⟩

/-- C1 counterexample: when `package.json` is absent, the returned
`CheckResult` has `missingPackages` and `outdatedPackages` both empty yet
`isValid = false` (the error path), refuting the unrestricted
"isValid true iff both lists empty". -/
theorem c1_isValid_iff_counterexample :
    (checkDependencies cEnvNoManifest).missingPackages = [] ∧
    (checkDependencies cEnvNoManifest).outdatedPackages = [] ∧
    (checkDependencies cEnvNoManifest).isValid = false := by
  decide

/-- C1 (amended): for every `CheckResult` returned by `checkDependencies`
whose `errors` list is empty, `isValid` is true iff `missingPackages` and
`outdatedPackages` are both empty; `extraPackages` never affects `isValid`
(validity is fully determined by the two lists). -/
theorem c1_isValid_iff_amended (env : CheckEnv)
    (h : (checkDependencies env).errors = []) :
    ((checkDependencies env).isValid = true ↔
      ((checkDependencies env).missingPackages = [] ∧
        (checkDependencies env).outdatedPackages = [])) := by
  cases hpj : env.packageJson with
  | none =>
    exfalso
    simp [checkDependencies, checkDependenciesRun, hpj] at h
  | some pj =>
    obtain ⟨hm, ho, _, _, hv⟩ := checkDeps_fields env pj hpj
    rw [hm, ho, hv]
    simp

/-- Witness for C1: the spec's example with `lodash` satisfied and `chalk`
missing has empty `errors`, so the amended equivalence applies. -/
theorem c1_isValid_iff_witness :
    (checkDependencies cEnvLodash).errors = [] ∧
    ((checkDependencies cEnvLodash).isValid = true ↔
      ((checkDependencies cEnvLodash).missingPackages = [] ∧
        (checkDependencies cEnvLodash).outdatedPackages = [])) :=
  ⟨by decide, c1_isValid_iff_amended cEnvLodash (by decide)⟩

/-- C4 counterexample: merging runtime section `a ↦ ^1.0.0` with development
section `a ↦ ^2.0.0` silently replaces the runtime entry by the development
one (JS spread is last-write-wins), refuting "a development entry never
silently overrides a runtime entry of the same name". -/
theorem c4_merge_counterexample :
    spreadMerge [("a", "^1.0.0")] [("a", "^2.0.0")] = [("a", "^2.0.0")] ∧
    lookupFirst (spreadMerge [("a", "^1.0.0")] [("a", "^2.0.0")]) "a" =
      some "^2.0.0" := by
  decide

/-- C4 (amended): the merged `DependencySpec` keys are exactly the union of
the runtime and development sections, and on a shared name the development
entry's requirement overrides the runtime one (last-write-wins). -/
theorem c4_merge_amended (a b : List (String × String)) (n : String) :
    (n ∈ (spreadMerge a b).map Prod.fst ↔
      n ∈ a.map Prod.fst ∨ n ∈ b.map Prod.fst) ∧
    lookupFirst (spreadMerge a b) n =
      (match lookupFirst b n with
       | some v => some v
       | none => lookupFirst a n) := by
  refine ⟨?_, lookupFirst_spreadMerge a b n⟩
  rw [spreadMerge_keys, List.mem_append]
  constructor
  · rintro (h | h)
    · exact Or.inl h
    · rcases List.mem_map.mp h with ⟨p, hp, he⟩
      exact Or.inr (List.mem_map.mpr ⟨p, (List.mem_filter.mp hp).1, he⟩)
  · rintro (h | h)
    · exact Or.inl h
    · by_cases ha : n ∈ a.map Prod.fst
      · exact Or.inl ha
      · rcases List.mem_map.mp h with ⟨p, hp, he⟩
        refine Or.inr (List.mem_map.mpr ⟨p, List.mem_filter.mpr ⟨hp, ?_⟩, he⟩)
        have h0 : lookupFirst a p.1 = none := by
          rw [he]
          exact (lookupFirst_eq_none a n).mpr ha
        simp [h0]

/-- C5: every installed entry of the yarn tree listing whose text is a name,
a last `'@'`, and a non-empty `'@'`-free version, is split on that last
`'@'`: the name keeps any earlier `'@'` (scoped packages). -/
theorem c5_parseTreeEntry_splitLast (s n v : String)
    (hs : s.data = n.data ++ '@' :: v.data) (hv : v.data ≠ [])
    (hnv : ('@' : Char) ∉ v.data) :
    parseTreeEntry s = some (n, v) := by
  unfold parseTreeEntry
  rw [hs, List.reverse_append, List.reverse_cons, List.append_assoc,
    List.singleton_append,
    splitRev_append n.data.reverse v.data.reverse (by simpa using hv)
      (by simpa using hnv)]
  simp

/-- Witness for C5: the scoped entry `@scope/pkg@2.3.4` yields name
`@scope/pkg` and version `2.3.4`, not name `""` and version
`scope/pkg@2.3.4`. -/
theorem c5_parseTreeEntry_witness :
    parseTreeEntry "@scope/pkg@2.3.4" = some ("@scope/pkg", "2.3.4") :=
  c5_parseTreeEntry_splitLast "@scope/pkg@2.3.4" "@scope/pkg" "2.3.4"
    (by decide) (by decide) (by decide)

/-- C6: for every supported manager, when the captured list output cannot be
parsed as the expected structure the parsing step yields the empty installed
set; `parseInstalled` is a total function, so no exception escapes it. -/
theorem c6_parseInstalled_graceful (pm : String) (output : Option JVal)
    (hpm : pm = "pnpm" ∨ pm = "yarn" ∨ pm = "npm")
    (h : expectedShape pm output = false) :
    parseInstalled pm output = [] := by
  cases output with
  | none => rfl
  | some r =>
    rcases hpm with h1 | h1 | h1 <;> subst h1
    · cases hd : r.getField "dependencies" with
      | none => simp [parseInstalled, flatParse, hd]
      | some j => cases j <;> simp_all [parseInstalled, expectedShape, flatParse, hd]
    · cases hd : r.getField "data" with
      | none => simp [parseInstalled, yarnParse, hd]
      | some d =>
        cases ht : d.getField "trees" with
        | none => simp [parseInstalled, yarnParse, expectedShape, hd, ht]
        | some j =>
          cases j <;> simp_all [parseInstalled, expectedShape, yarnParse, hd, ht]
    · cases hd : r.getField "dependencies" with
      | none => simp [parseInstalled, flatParse, hd]
      | some j => cases j <;> simp_all [parseInstalled, expectedShape, flatParse, hd]

/-- Witness for C6: npm output that is a bare string has no `dependencies`
object, so the parse degrades to the empty set. -/
theorem c6_parseInstalled_witness :
    expectedShape "npm" (some (JVal.str "not json we expected")) = false ∧
    parseInstalled "npm" (some (JVal.str "not json we expected")) = [] :=
  ⟨by decide, c6_parseInstalled_graceful "npm" (some (JVal.str "not json we expected"))
    (Or.inr (Or.inr rfl)) (by decide)⟩

/-- Environment whose manifest declares `a` with the (falsy) empty
requirement string while `a` is installed. -/
def cEnvEmptyReq : CheckEnv := ⟨some ⟨[("a", "")], []⟩, [("a", "1.0.0")]⟩

/-- C10 counterexample: with `a` declared with the empty requirement string
and installed at `1.0.0`, the truthiness test `!requiredDependencies[name]`
treats the declaration as absent and reports `a` as extra — an
`extraPackages` name that IS declared, refuting "a name in extraPackages is
installed but not declared". -/
theorem c10_disjoint_counterexample :
    (checkDependencies cEnvEmptyReq).extraPackages = ["a"] ∧
    "a" ∈ (spreadMerge [("a", "")] ([] : List (String × String))).map Prod.fst := by
  decide

/-- The manifest of the three-way witness environment. -/
def pjMixed : Manifest :=
  ⟨[("lodash", "^4.0.0"), ("chalk", "^5.0.0")], [("mocha", "^9.0.0")]⟩

/-- Environment with one missing (`chalk`), one outdated (`mocha`) and one
extra (`left-pad`) package. -/
def cEnvMixed : CheckEnv :=
  ⟨some pjMixed, [("lodash", "4.17.21"), ("mocha", "8.0.0"), ("left-pad", "1.3.0")]⟩

/-- C10 (amended): provided every declared requirement string and every
installed version string is non-empty (the latter is guaranteed for sets
produced by `parseInstalled`), the three diagnostic lists reference pairwise
disjoint name sets: missing names are declared but not installed, outdated
names are declared and installed, extra names are installed but not
declared. -/
theorem c10_disjoint_amended (env : CheckEnv) (pj : Manifest)
    (hpj : env.packageJson = some pj)
    (hreq : ∀ p ∈ spreadMerge pj.dependencies pj.devDependencies, p.2 ≠ "")
    (hinst : ∀ p ∈ env.installed, p.2 ≠ "") :
    ((checkDependencies env).outdatedPackages =
      outdatedEntriesOf env.installed (spreadMerge pj.dependencies pj.devDependencies)) ∧
    (∀ n ∈ (checkDependencies env).missingPackages,
      n ∈ (spreadMerge pj.dependencies pj.devDependencies).map Prod.fst ∧
        n ∉ env.installed.map Prod.fst) ∧
    (∀ n ∈ outdatedNamesOf env.installed (spreadMerge pj.dependencies pj.devDependencies),
      n ∈ (spreadMerge pj.dependencies pj.devDependencies).map Prod.fst ∧
        n ∈ env.installed.map Prod.fst) ∧
    (∀ n ∈ (checkDependencies env).extraPackages,
      n ∈ env.installed.map Prod.fst ∧
        n ∉ (spreadMerge pj.dependencies pj.devDependencies).map Prod.fst) ∧
    (∀ n, ¬(n ∈ (checkDependencies env).missingPackages ∧
      n ∈ outdatedNamesOf env.installed (spreadMerge pj.dependencies pj.devDependencies))) ∧
    (∀ n, ¬(n ∈ (checkDependencies env).missingPackages ∧
      n ∈ (checkDependencies env).extraPackages)) ∧
    (∀ n, ¬(n ∈ outdatedNamesOf env.installed
        (spreadMerge pj.dependencies pj.devDependencies) ∧
      n ∈ (checkDependencies env).extraPackages)) := by
  obtain ⟨hm, ho, hx, _, _⟩ := checkDeps_fields env pj hpj
  have Hmiss : ∀ n ∈ (checkDependencies env).missingPackages,
      n ∈ (spreadMerge pj.dependencies pj.devDependencies).map Prod.fst ∧
        n ∉ env.installed.map Prod.fst := by
    intro n hn
    rw [hm] at hn
    rcases List.mem_map.mp hn with ⟨p, hp, he⟩
    have hfil := List.mem_filter.mp hp
    have hnone : lookupJS env.installed n = none := by
      have := hfil.2
      rw [he] at this
      simpa using this
    exact ⟨List.mem_map.mpr ⟨p, hfil.1, he⟩, (lookupJS_none_iff hinst).mp hnone⟩
  have Houtd : ∀ n ∈ outdatedNamesOf env.installed
        (spreadMerge pj.dependencies pj.devDependencies),
      n ∈ (spreadMerge pj.dependencies pj.devDependencies).map Prod.fst ∧
        n ∈ env.installed.map Prod.fst := by
    intro n hn
    rcases List.mem_filterMap.mp hn with ⟨p, hp, he⟩
    cases hL : lookupJS env.installed p.1 with
    | none => rw [hL] at he; cases he
    | some v =>
      rw [hL] at he
      cases hc : isVersionCompatible p.2 v with
      | true => simp [hc] at he
      | false =>
        simp only [hc, if_false, Bool.false_eq_true, Option.some.injEq] at he
        refine ⟨List.mem_map.mpr ⟨p, hp, he⟩, ?_⟩
        rw [← he]
        exact lookupJS_some_mem hL
  have Hex : ∀ n ∈ (checkDependencies env).extraPackages,
      n ∈ env.installed.map Prod.fst ∧
        n ∉ (spreadMerge pj.dependencies pj.devDependencies).map Prod.fst := by
    intro n hn
    rw [hx] at hn
    have hfil := List.mem_filter.mp hn
    have hnone : lookupJS (spreadMerge pj.dependencies pj.devDependencies) n = none := by
      simpa using hfil.2
    exact ⟨hfil.1, (lookupJS_none_iff hreq).mp hnone⟩
  refine ⟨ho, Hmiss, Houtd, Hex, ?_, ?_, ?_⟩
  · rintro n ⟨h1, h2⟩
    exact (Hmiss n h1).2 (Houtd n h2).2
  · rintro n ⟨h1, h2⟩
    exact (Hmiss n h1).2 (Hex n h2).1
  · rintro n ⟨h1, h2⟩
    exact (Hex n h2).2 (Houtd n h1).1

/-- Witness for C10: an environment with one missing, one outdated and one
extra package satisfies the amended disjointness characterization. -/
theorem c10_disjoint_witness :
    ((checkDependencies cEnvMixed).outdatedPackages =
      outdatedEntriesOf cEnvMixed.installed
        (spreadMerge pjMixed.dependencies pjMixed.devDependencies)) ∧
    (∀ n ∈ (checkDependencies cEnvMixed).missingPackages,
      n ∈ (spreadMerge pjMixed.dependencies pjMixed.devDependencies).map Prod.fst ∧
        n ∉ cEnvMixed.installed.map Prod.fst) ∧
    (∀ n ∈ outdatedNamesOf cEnvMixed.installed
        (spreadMerge pjMixed.dependencies pjMixed.devDependencies),
      n ∈ (spreadMerge pjMixed.dependencies pjMixed.devDependencies).map Prod.fst ∧
        n ∈ cEnvMixed.installed.map Prod.fst) ∧
    (∀ n ∈ (checkDependencies cEnvMixed).extraPackages,
      n ∈ cEnvMixed.installed.map Prod.fst ∧
        n ∉ (spreadMerge pjMixed.dependencies pjMixed.devDependencies).map Prod.fst) ∧
    (∀ n, ¬(n ∈ (checkDependencies cEnvMixed).missingPackages ∧
      n ∈ outdatedNamesOf cEnvMixed.installed
        (spreadMerge pjMixed.dependencies pjMixed.devDependencies))) ∧
    (∀ n, ¬(n ∈ (checkDependencies cEnvMixed).missingPackages ∧
      n ∈ (checkDependencies cEnvMixed).extraPackages)) ∧
    (∀ n, ¬(n ∈ outdatedNamesOf cEnvMixed.installed
        (spreadMerge pjMixed.dependencies pjMixed.devDependencies) ∧
      n ∈ (checkDependencies cEnvMixed).extraPackages)) :=
  c10_disjoint_amended cEnvMixed pjMixed rfl (by decide) (by decide)
